import Mathlib

/-!
# Verification of the Pocket Network revenue import pipeline

A shallow embedding of `src/cmd/pocket.ts` (the `pocketImport` batch job and
its helpers), together with proofs of the specified properties.

Modelling conventions:
* JS numbers that hold exact integer/decimal data (timestamps, amounts,
  prices, revenues) are modelled as `Int` / `ℚ`; all arithmetic performed by
  the source on the reachable values is exact in binary64, so the rational
  model is faithful.
* The persistent store (prisma) is modelled as an explicit `DB` record that
  each operation threads through.
* External HTTP calls (`axios.get` / `axios.post`) are modelled as oracle
  inputs typed by the source's own response type annotations; an absent or
  malformed payload is `none`.
* Thrown exceptions become an `Option ImportError` component of the result;
  once an error is raised the remaining statements do not run, but DB writes
  already performed persist (as in the real process, which exits with the
  store retaining committed writes).
-/

set_option autoImplicit false

namespace Pocket

/-- The error conditions the run can abort with (each `throw` site in
`src/cmd/pocket.ts` gets one constructor). -/
inductive ImportError where
  /-- `"Unable to parse int."` — the stored checkpoint failed `parseInt`. -/
  | parseIntError
  /-- `"No data returned by the price API."` -/
  | priceApiNoData
  /-- `"No data returned by the PoktScan API."` -/
  | poktscanNoData
  /-- The `pocketPrices.find(...)` destructuring threw: no price entry whose
  `date` equals the day's full ISO string. Carries the ISO key looked up. -/
  | priceMissing (dayISO : String)
  deriving DecidableEq, Repr

/-! ## JS `parseInt` (radix argument omitted, ECMAScript semantics) -/

/-- The whitespace characters `parseInt` skips before parsing. -/
def jsWhitespace (c : Char) : Bool :=
  c == ' ' || c == '\t' || c == '\n' || c == '\r' || c == '\x0b' || c == '\x0c'

/-- Decimal digit test. -/
def decDigit (c : Char) : Bool := '0' ≤ c && c ≤ '9'

/-- Value of a (hex) digit character, `none` if not a hex digit. -/
def hexDigitVal (c : Char) : Option Nat :=
  if decDigit c then some (c.toNat - 48)
  else if 'a' ≤ c && c ≤ 'f' then some (c.toNat - 87)
  else if 'A' ≤ c && c ≤ 'F' then some (c.toNat - 55)
  else none

/-- Whether `c` is a digit of the given radix (only 10 and 16 arise). -/
def isRadixDigit (radix : Nat) (c : Char) : Bool :=
  match hexDigitVal c with
  | some v => v < radix
  | none => false

/-- Value of a digit string in the given radix. -/
def digitsVal (radix : Nat) (ds : List Char) : Nat :=
  ds.foldl (fun acc c => acc * radix + ((hexDigitVal c).getD 0)) 0

/-- ECMAScript `parseInt(s)` with the radix argument omitted: skip
whitespace, optional sign, optional `0x`/`0X` prefix selecting radix 16,
then the longest prefix of radix digits; `none` models `NaN`. -/
def jsParseInt (s : String) : Option Int :=
  let cs := s.toList.dropWhile jsWhitespace
  let signAndRest : Int × List Char :=
    match cs with
    | '+' :: r => (1, r)
    | '-' :: r => (-1, r)
    | _ => (1, cs)
  let radixAndRest : Nat × List Char :=
    match signAndRest.2 with
    | '0' :: 'x' :: r => (16, r)
    | '0' :: 'X' :: r => (16, r)
    | _ => (10, signAndRest.2)
  let ds := radixAndRest.2.takeWhile (isRadixDigit radixAndRest.1)
  if ds.isEmpty then none
  else some (signAndRest.1 * (digitsVal radixAndRest.1 ds : Int))

/-! ## `Date.prototype.toISOString` (`formatDate` in the source) -/

/-- Left-pad to two digits. -/
def pad2 (n : Nat) : String :=
  if n < 10 then "0" ++ toString n else toString n

/-- Left-pad to three digits. -/
def pad3 (n : Nat) : String :=
  if n < 10 then "00" ++ toString n
  else if n < 100 then "0" ++ toString n
  else toString n

/-- Left-pad to four digits. -/
def pad4 (n : Nat) : String :=
  if n < 10 then "000" ++ toString n
  else if n < 100 then "00" ++ toString n
  else if n < 1000 then "0" ++ toString n
  else toString n

/-- Year component rendering (negative years get a sign; the runs only ever
format years well inside 1970–9999). -/
def yearStr (y : Int) : String :=
  if y < 0 then "-" ++ pad4 (-y).toNat else pad4 y.toNat

/-- Proleptic-Gregorian civil date from a count of days since 1970-01-01
(the calendar ECMAScript `Date` uses). Returns `(year, month, day)`. -/
def civilFromDays (z0 : Int) : Int × Nat × Nat :=
  let z := z0 + 719468
  let era : Int := z.ediv 146097
  let doe : Nat := (z - era * 146097).toNat
  let yoe : Nat := (doe - doe / 1460 + doe / 36524 - doe / 146096) / 365
  let y : Int := (yoe : Int) + era * 400
  let doy : Nat := doe - (365 * yoe + yoe / 4 - yoe / 100)
  let mp : Nat := (5 * doy + 2) / 153
  let d : Nat := doy - (153 * mp + 2) / 5 + 1
  let m : Nat := if mp < 10 then mp + 3 else mp - 9
  (if m ≤ 2 then y + 1 else y, m, d)

/-- `formatDate(date) = date.toISOString()`: the 24-character
`YYYY-MM-DDTHH:mm:ss.SSSZ` rendering of a millisecond Unix timestamp. -/
def formatDate (ms : Int) : String :=
  let day := ms.ediv 86400000
  let msod := (ms.emod 86400000).toNat
  let c := civilFromDays day
  yearStr c.1 ++ "-" ++ pad2 c.2.1 ++ "-" ++ pad2 c.2.2 ++ "T" ++
    pad2 (msod / 3600000) ++ ":" ++ pad2 (msod % 3600000 / 60000) ++ ":" ++
    pad2 (msod % 60000 / 1000) ++ "." ++ pad3 (msod % 1000) ++ "Z"

/-! ## `dateRangeToList` -/

/-- One calendar day of milliseconds: `dt.setDate(dt.getDate() + 1)` under
the fixed-offset clock the job runs with advances the timestamp by exactly
this amount. -/
def msPerDay : Int := 86400000

/-- The loop of `dateRangeToList`, with explicit fuel (the fuel
`(toDate + 1 - fromDate).toNat` used below strictly dominates the number of
iterations, so the fuel never runs out; structural recursion keeps the
definition kernel-evaluable). -/
def dateRangeAux : Nat → Int → Int → List Int
  | 0, _, _ => []
  | fuel + 1, fromDate, toDate =>
    if fromDate ≤ toDate then
      fromDate :: dateRangeAux fuel (fromDate + msPerDay) toDate
    else []

/-- `dateRangeToList(fromDate, toDate)`: starting at `fromDate`, push the
current date and step one day forward while the date is `≤ toDate`. -/
def dateRangeToList (fromDate toDate : Int) : List Int :=
  dateRangeAux (toDate + 1 - fromDate).toNat fromDate toDate

/-- Closed form used by the proofs: the stepped dates are
`fromDate + i · msPerDay` for `i = 0, …, ⌊(toDate − fromDate)/day⌋`. -/
def rangeSpec (fromDate toDate : Int) : List Int :=
  if fromDate ≤ toDate then
    (List.range ((toDate - fromDate).toNat / 86400000 + 1)).map
      (fun i : Nat => fromDate + (i : Int) * msPerDay)
  else []

/-! ## Persistent store model -/

/-- A `project` row: `name`, string checkpoint `lastImportedId`, and the
pending-reset flag `delete` (named `del` here; `deriving` on a field named
`delete` is fine, the rename is only for readability). -/
structure Project where
  id : Nat
  name : String
  lastImportedId : String
  del : Bool
  deriving DecidableEq, Repr

/-- A `day` row: one revenue observation. -/
structure Day where
  id : Nat
  date : Int
  revenue : ℚ
  projectId : Nat
  deriving DecidableEq, Repr

/-- The prisma store: both tables plus fresh-id counters for `create`. -/
structure DB where
  projects : List Project
  days : List Day
  nextProjectId : Nat
  nextDayId : Nat
  deriving DecidableEq, Repr

/-- The `dayData` argument of `storeDBData`: `{date (seconds), fees}`. -/
structure DayData where
  date : Int
  fees : ℚ
  deriving DecidableEq, Repr

/-! ## CoinMarketCap response shape (`getPOKTDayPrices`) -/

/-- `quote.quote.USD` (only the `price` field is read). -/
structure USDInfo where
  price : ℚ
  deriving DecidableEq, Repr

/-- `quote.quote`. -/
structure QuoteCurrencies where
  USD : USDInfo
  deriving DecidableEq, Repr

/-- One historical quote: a timestamp string and the per-currency data. -/
structure Quote where
  timestamp : String
  quote : QuoteCurrencies
  deriving DecidableEq, Repr

/-- `response.data` (only `quotes` is read). -/
structure CMCData where
  quotes : List Quote
  deriving DecidableEq, Repr

/-- The CMC `Response` shape of the source. -/
structure CMCResponse where
  data : CMCData
  deriving DecidableEq, Repr

/-- The `{date, price}` pairs `getPOKTDayPrices` returns. -/
structure DayPrice where
  date : String
  price : ℚ
  deriving DecidableEq, Repr

/-! ## PoktScan response shape and query (`getPOKTNetworkData`) -/

/-- One transaction in the PoktScan response. -/
structure PoktScanTransaction where
  amount : ℚ
  block_time : String
  result_code : Int
  deriving DecidableEq, Repr

/-- `ListPoktTransaction` payload. -/
structure PoktScanTransactionList where
  items : List PoktScanTransaction
  deriving DecidableEq, Repr

/-- `response.data`; `none` models an absent/undefined `data` field. -/
structure PoktScanData where
  ListPoktTransaction : PoktScanTransactionList
  deriving DecidableEq, Repr

/-- The PoktScan response shape: `data` may be missing (`!response.data`). -/
structure PoktScanResponse where
  data : Option PoktScanData
  deriving DecidableEq, Repr

/-- One entry of the GraphQL filter's `properties` array. -/
structure PoktFilterProp where
  operator : String
  type : String
  property : String
  value : String
  deriving DecidableEq, Repr

/-- The GraphQL filter: an operator over a list of properties. -/
structure PoktFilter where
  operator : String
  properties : List PoktFilterProp
  deriving DecidableEq, Repr

/-- The GraphQL pagination payload: hard-coded `limit` plus the filter. -/
structure PoktPagination where
  limit : Nat
  filter : PoktFilter
  deriving DecidableEq, Repr

/-- The `variables` object `getPOKTNetworkData` builds. -/
structure PoktVariables where
  pagination : PoktPagination
  deriving DecidableEq, Repr

/-- The `variables` literal of the source: limit 10 and an `AND` filter on
transaction type `"dao_tranfer"` (sic), action `"dao_burn"`, and
`block_time ≥` the day's ISO date. -/
def mkVariables (ISODate : String) : PoktVariables :=
  ⟨⟨10, ⟨"AND",
    [⟨"EQ", "STRING", "type", "dao_tranfer"⟩,
     ⟨"EQ", "STRING", "action", "dao_burn"⟩,
     ⟨"GTE", "DATE", "block_time", ISODate⟩]⟩⟩⟩

/-- The aggregation of `getPOKTNetworkData`: keep transactions whose
`result_code` is `0` and sum their `amount`s. -/
def totalBurnedOf (items : List PoktScanTransaction) : ℚ :=
  (items.filter (fun burnTx => burnTx.result_code == 0)).foldl
    (fun sum burnTx => sum + burnTx.amount) 0

/-- The value the source's burn fetch actually binds: `axios.post` is
called WITHOUT `await`, so `response` is a pending Promise — a truthy
object (not `none`) with no `data` property (`data = none`). At run time
every burn fetch receives exactly this value, whatever the feed holds, so
the success path of `getPOKTNetworkData` below is dead code. -/
def pendingPoktScanResponse : PoktScanResponse := ⟨none⟩

/-- The body of `getPOKTNetworkData(date)`: builds the `variables` query
for `date` (see `mkVariables`), binds the result of the PoktScan call as
`response` (a parameter here; in the source the un-awaited call always
binds `pendingPoktScanResponse`), rejects an absent response or absent
`data`, and returns the filtered sum of the returned items — a branch the
running program never reaches. -/
def getPOKTNetworkData (response : Option PoktScanResponse) (_date : Int) :
    Except ImportError ℚ :=
  match response with
  | none => .error .poktscanNoData
  | some r =>
    match r.data with
    | none => .error .poktscanNoData
    | some d => .ok (totalBurnedOf d.ListPoktTransaction.items)

/-! ## `getPOKTDayPrices` -/

/-- `quote.timestamp.slice(0, 10)`: the date-only key. -/
def dayKey (timestamp : String) : String := timestamp.take 10

/-- JS `Set.add`: append if not already present (insertion order kept). -/
def insertUnique (l : List String) (s : String) : List String :=
  if s ∈ l then l else l ++ [s]

/-- The `uniqueDates` set after the `forEach`: the day keys of the quotes
in first-occurrence order. -/
def uniqueDates (quotes : List Quote) : List String :=
  quotes.foldl (fun acc q => insertUnique acc (dayKey q.timestamp)) []

/-- The `dateQuotes[date]` array after the `forEach`: the USD prices of the
quotes whose day key is `date`, in input order (the incremental map of the
source pushes each matching quote's price in traversal order, which is
exactly this in-order filter). -/
def dateQuotes (quotes : List Quote) (date : String) : List ℚ :=
  (quotes.filter (fun q => dayKey q.timestamp == date)).map
    (fun q => q.quote.USD.price)

/-- The average computed per unique date: `sum / prices.length`. -/
def averagePrice (prices : List ℚ) : ℚ :=
  (prices.foldl (fun acc price => acc + price) 0) / (prices.length : ℚ)

/-- The `dayPrices` list `getPOKTDayPrices` returns on a good response: one
`{date, price}` entry per unique date, in first-occurrence order. -/
def dayPricesOf (quotes : List Quote) : List DayPrice :=
  (uniqueDates quotes).map (fun date => ⟨date, averagePrice (dateQuotes quotes date)⟩)

/-- `getPOKTDayPrices(dateFrom, dateTo)`: issues one CMC request for the
whole span (modelled as the oracle `response` argument), rejects an absent
response, and returns the per-date average prices. -/
def getPOKTDayPrices (response : Option CMCResponse) :
    Except ImportError (List DayPrice) :=
  match response with
  | none => .error .priceApiNoData
  | some r => .ok (dayPricesOf r.data.quotes)

/-! ## Store operations -/

/-- `getProject(name)`: `findFirst` by name; if absent, `create` with the
hard-coded July 1st 2021 checkpoint and re-read the stored row. -/
def getProject (db : DB) (name : String) : DB × Project :=
  match db.projects.find? (fun p => p.name == name) with
  | some project => (db, project)
  | none =>
    let project : Project := ⟨db.nextProjectId, name, "1625112000", false⟩
    ({ db with
        projects := db.projects ++ [project],
        nextProjectId := db.nextProjectId + 1 },
      project)

/-- The reset block of `pocketImport` (lines 24–36): if the fetched
project's `delete` flag is set, update the row named `"pocket"` setting
`delete: false` and `lastImportedId: "0"`. Only the store changes; the
in-memory `project` binding of the caller is not refreshed. -/
def resetStep (db : DB) (project : Project) : DB :=
  if project.del then
    { db with
        projects := db.projects.map (fun p =>
          if p.name == "pocket" then { p with del := false, lastImportedId := "0" }
          else p) }
  else db

/-- `storeDBData(dayData, projectId)`: find a `day` by `(date, projectId)`;
update its `revenue` by id if found, otherwise create it; then
`updateMany` every project named `"pocket"` (the hard-coded `coin.name`,
not the `projectId` argument) setting `lastImportedId` to the day's
timestamp rendered as a string. -/
def storeDBData (dayData : DayData) (projectId : Nat) (db : DB) : DB :=
  let db1 : DB :=
    match db.days.find? (fun d => d.date == dayData.date && d.projectId == projectId) with
    | some day =>
      { db with
          days := db.days.map (fun d =>
            if d.id == day.id then { d with revenue := dayData.fees } else d) }
    | none =>
      { db with
          days := db.days ++ [⟨db.nextDayId, dayData.date, dayData.fees, projectId⟩],
          nextDayId := db.nextDayId + 1 }
  { db1 with
      projects := db1.projects.map (fun p =>
        if p.name == "pocket" then { p with lastImportedId := toString dayData.date }
        else p) }

/-! ## Observers on the store (used only to state properties) -/

/-- The number of `day` rows for a `(projectId, date)` pair. -/
def countDays (db : DB) (projectId : Nat) (date : Int) : Nat :=
  (db.days.filter (fun d => d.date == date && d.projectId == projectId)).length

/-- The checkpoint of the first project named `"pocket"`, if any. -/
def checkpointOf (db : DB) : Option String :=
  (db.projects.find? (fun p => p.name == "pocket")).map (fun p => p.lastImportedId)

/-! ## The per-day loop and the orchestrator -/

/-- The external world a run interacts with: the CMC response for the bulk
price request (awaited in the source), the value each day's burn-fetch
binding receives (keyed by the request date; in the program as written this
is always `some pendingPoktScanResponse`, since the post is not awaited —
scenario theorems that pass resolved data here disclose the difference),
and the wall clock (`new Date()`, ms). -/
structure World where
  cmc : Option CMCResponse
  poktscan : Int → Option PoktScanResponse
  now : Int

/-- The body of `for (const day of days)` (lines 52–80): fetch the day's
burn total, look the day's price up by its full ISO string, multiply, and
`storeDBData` the result. A `throw` leaves the store as-is and surfaces the
error. `day.getTime() / 1000` is exact division here (every generated day
is a whole-second timestamp), modelled with `Int.ediv`. -/
def processDay (poktscan : Int → Option PoktScanResponse)
    (pocketPrices : List DayPrice) (projectId : Nat) (db : DB) (day : Int) :
    DB × Option ImportError :=
  let dayISO := formatDate day
  let dateUnixTimestamp := day.ediv 1000
  match getPOKTNetworkData (poktscan day) day with
  | .error e => (db, some e)
  | .ok totalBurned =>
    match pocketPrices.find? (fun x => x.date == dayISO) with
    | none => (db, some (.priceMissing dayISO))
    | some found =>
      let revenue := totalBurned * found.price
      (storeDBData ⟨dateUnixTimestamp, revenue⟩ projectId db, none)

/-- The day loop: run `processDay` on each day in order, halting at the
first failure (the thrown error aborts the remaining iterations; committed
writes persist). -/
def runDays (poktscan : Int → Option PoktScanResponse)
    (pocketPrices : List DayPrice) (projectId : Nat) (db : DB) :
    List Int → DB × Option ImportError
  | [] => (db, none)
  | day :: rest =>
    match processDay poktscan pocketPrices projectId db day with
    | (db1, none) => runDays poktscan pocketPrices projectId db1 rest
    | (db1, some e) => (db1, some e)

/-- Lines 38–80 of `pocketImport`, as a function of the checkpoint string
the run read into `lastId`: parse it (abort on `NaN`), build the day range
from `parsedId * 1000` to now, bulk-fetch the prices, iterate the days. -/
def importFromCheckpoint (w : World) (db : DB) (projectId : Nat)
    (lastId : String) : DB × Option ImportError :=
  match jsParseInt lastId with
  | none => (db, some .parseIntError)
  | some parsedId =>
    let fromDate := parsedId * 1000
    let toDate := w.now
    let days := dateRangeToList fromDate toDate
    match getPOKTDayPrices w.cmc with
    | .error e => (db, some e)
    | .ok pocketPrices => runDays w.poktscan pocketPrices projectId db days

/-- `pocketImport()`: resolve the project, run the reset block (which
updates only the store, not the in-memory `project`), then continue from
the checkpoint string read off the in-memory `project`. -/
def pocketImport (w : World) (db : DB) : DB × Option ImportError :=
  let resolved := getProject db "pocket"
  let project := resolved.2
  let db1 := resetStep resolved.1 project
  importFromCheckpoint w db1 project.id project.lastImportedId

/-! ## Spec-modelled network feed

The PoktScan server itself is not part of the repository; per the spec's
external-interface section it answers the query-language call by applying
the `AND` filter (transaction type, action, inclusive lower-bound date) and
the pagination limit to its transaction log. -/

/-- A transaction as stored by the network feed (the response projection
keeps `amount`, `block_time`, `result_code`). Modelled from the spec: the
feed's log entries carry the filterable `type` and `action` fields plus the
returned fields. -/
structure FeedTransaction where
  type : String
  action : String
  amount : ℚ
  block_time : String
  result_code : Int
  deriving DecidableEq, Repr

/-- Modelled from the spec: the value of the filtered field of a feed
transaction. -/
def feedField (tx : FeedTransaction) (property : String) : String :=
  if property == "type" then tx.type
  else if property == "action" then tx.action
  else if property == "block_time" then tx.block_time
  else ""

/-- Lexicographic comparison of the character sequences (how string
comparison of ISO dates behaves chronologically). -/
def strLebAux : List Char → List Char → Bool
  | [], _ => true
  | _ :: _, [] => false
  | x :: xs, y :: ys => if x = y then strLebAux xs ys else decide (x < y)

/-- `a ≤ b` on strings, lexicographically by code unit. -/
def strLeb (a b : String) : Bool := strLebAux a.toList b.toList

/-- Modelled from the spec: one filter property holds of a transaction
(`EQ` is equality, `GTE` is an inclusive lower bound; ISO date strings
compare chronologically as strings). -/
def propHolds (tx : FeedTransaction) (p : PoktFilterProp) : Bool :=
  if p.operator == "EQ" then feedField tx p.property == p.value
  else if p.operator == "GTE" then strLeb p.value (feedField tx p.property)
  else true

/-- Modelled from the spec: the whole filter holds (`AND` over the
properties). -/
def filterHolds (f : PoktFilter) (tx : FeedTransaction) : Bool :=
  if f.operator == "AND" then f.properties.all (propHolds tx) else true

/-- Modelled from the spec: the feed answers `ListPoktTransaction` with the
first `limit` log entries satisfying the filter, projected to the response
shape. -/
def listPoktTransactionServer (log : List FeedTransaction)
    (vars : PoktVariables) : List PoktScanTransaction :=
  ((log.filter (filterHolds vars.pagination.filter)).take vars.pagination.limit).map
    (fun tx => ⟨tx.amount, tx.block_time, tx.result_code⟩)

/-! ## Spec-side definitions (for refinement comparison only) -/

/-- What the spec's words "a valid integer string" denote: an optional sign
followed by a nonempty run of decimal digits and nothing else. Written from
the spec, to be compared with the source's `parseInt` acceptance. -/
def specValidIntegerString (s : String) : Bool :=
  let cs := s.toList
  let cs1 :=
    match cs with
    | '+' :: r => r
    | '-' :: r => r
    | _ => cs
  !cs1.isEmpty && cs1.all decDigit

/-! ## Concrete scenario data used by the closed theorems -/

/-- An empty store (fresh database; prisma ids start at 1). -/
def emptyDB : DB := ⟨[], [], 1, 1⟩

/-- C1 scenario: three days of quotes at a flat price of $1.00. -/
def c1Quotes : List Quote :=
  [⟨"2021-07-01T12:00:00.000Z", ⟨⟨1⟩⟩⟩,
   ⟨"2021-07-02T12:00:00.000Z", ⟨⟨1⟩⟩⟩,
   ⟨"2021-07-03T12:00:00.000Z", ⟨⟨1⟩⟩⟩]

/-- C1 scenario: the network feed answers the three day queries with daily
burn totals 100, 0 and 50 (single successful transactions). -/
def c1Poktscan (day : Int) : Option PoktScanResponse :=
  if day == 1625112000000 then
    some ⟨some ⟨⟨[⟨100, "2021-07-01T10:00:00.000Z", 0⟩]⟩⟩⟩
  else if day == 1625198400000 then some ⟨some ⟨⟨[]⟩⟩⟩
  else some ⟨some ⟨⟨[⟨50, "2021-07-03T10:00:00.000Z", 0⟩]⟩⟩⟩

/-- C1 scenario: the world at a wall clock exactly two days past the
epoch-start checkpoint, giving a three-day range. -/
def c1World : World := ⟨some ⟨⟨c1Quotes⟩⟩, c1Poktscan, 1625284800000⟩

/-- C2 scenario: a pocket project flagged for reset whose checkpoint
(July 2nd 2021) is well past the epoch-start constant. -/
def c2DB : DB := ⟨[⟨1, "pocket", "1625198400", true⟩], [], 2, 1⟩

/-- C2 scenario: quotes present, burn feed always answers (empty lists),
wall clock July 3rd 2021. -/
def c2World : World :=
  ⟨some ⟨⟨c1Quotes⟩⟩, fun _ => some ⟨some ⟨⟨[]⟩⟩⟩, 1625284800000⟩

/-- C8 scenario: a stored checkpoint with a parseable numeric prefix but
trailing garbage. -/
def c8DB : DB := ⟨[⟨1, "pocket", "123abc", false⟩], [], 2, 1⟩

/-- C8 scenario: a wall clock before the parsed checkpoint, so the day
range is empty and the run finishes. -/
def c8World : World := ⟨some ⟨⟨[]⟩⟩, fun _ => none, 0⟩

/-- C8 witness scenario: a checkpoint with no parseable digits at all. -/
def c8BadDB : DB := ⟨[⟨1, "pocket", "abc", false⟩], [], 2, 1⟩

/-- C9 witness scenario: only the first ten of `c9Log`. -/
def c9ShortLog : List FeedTransaction :=
  [⟨"dao_tranfer", "dao_burn", 1, "1970-01-02T00:00:00.000Z", 0⟩,
   ⟨"dao_tranfer", "dao_burn", 2, "1970-01-02T00:00:00.000Z", 0⟩,
   ⟨"dao_tranfer", "dao_burn", 3, "1970-01-02T00:00:00.000Z", 0⟩,
   ⟨"dao_tranfer", "dao_burn", 4, "1970-01-02T00:00:00.000Z", 0⟩,
   ⟨"dao_tranfer", "dao_burn", 5, "1970-01-02T00:00:00.000Z", 0⟩,
   ⟨"dao_tranfer", "dao_burn", 6, "1970-01-02T00:00:00.000Z", 0⟩,
   ⟨"dao_tranfer", "dao_burn", 7, "1970-01-02T00:00:00.000Z", 0⟩,
   ⟨"dao_tranfer", "dao_burn", 8, "1970-01-02T00:00:00.000Z", 0⟩,
   ⟨"dao_tranfer", "dao_burn", 9, "1970-01-02T00:00:00.000Z", 0⟩,
   ⟨"dao_tranfer", "dao_burn", 10, "1970-01-02T00:00:00.000Z", 0⟩]

/-- C9 witness scenario: eleven matching burn transactions (`c9ShortLog`
plus one more that the limit cuts off). -/
def c9Log : List FeedTransaction :=
  c9ShortLog ++ [⟨"dao_tranfer", "dao_burn", 11, "1970-01-02T00:00:00.000Z", 0⟩]

/-- C3 scenario: a price list (its content is irrelevant to the aborting
loop, which throws before the price lookup). -/
def c3Prices : List DayPrice :=
  [⟨"1970-01-02T00:00:00.000Z", 2⟩, ⟨"1970-01-03T00:00:00.000Z", 3⟩]

/-- C3 scenario: a store holding one pocket project. -/
def c3DB : DB := ⟨[⟨1, "pocket", "86400", false⟩], [], 2, 1⟩

/-- C3 scenario: the three days the loop would iterate. -/
def c3Days : List Int := [86400000, 172800000, 259200000]

/-- C6 witness scenario: two quotes on the same day plus one on another. -/
def c6Quotes : List Quote :=
  [⟨"2021-07-01T00:05:00.000Z", ⟨⟨1⟩⟩⟩,
   ⟨"2021-07-02T09:00:00.000Z", ⟨⟨7⟩⟩⟩,
   ⟨"2021-07-01T23:55:00.000Z", ⟨⟨2⟩⟩⟩]

/-- C6 witness scenario: a permutation of `c6Quotes`. -/
def c6QuotesPerm : List Quote :=
  [⟨"2021-07-01T23:55:00.000Z", ⟨⟨2⟩⟩⟩,
   ⟨"2021-07-01T00:05:00.000Z", ⟨⟨1⟩⟩⟩,
   ⟨"2021-07-02T09:00:00.000Z", ⟨⟨7⟩⟩⟩]

/-- C7/C10 witness scenario: a store with one project and one unrelated
day row. -/
def c7DB : DB :=
  ⟨[⟨1, "pocket", "1625112000", false⟩, ⟨2, "other", "7", false⟩],
   [⟨1, 100, 3, 2⟩], 3, 2⟩

/-!
# Theorems
-/

/-- Folding `+` from an accumulator computes the accumulator plus the sum. -/
theorem foldl_add_eq_sum (l : List ℚ) (a : ℚ) :
    l.foldl (fun acc price => acc + price) a = a + l.sum := by
  induction l generalizing a with
  | nil => simp
  | cons x xs ih => simp [ih, add_assoc]

/-- The burn `reduce` computes the accumulator plus the sum of amounts. -/
theorem foldl_add_amount (l : List PoktScanTransaction) (a : ℚ) :
    l.foldl (fun sum burnTx => sum + burnTx.amount) a =
      a + (l.map (fun burnTx => burnTx.amount)).sum := by
  induction l generalizing a with
  | nil => simp
  | cons x xs ih => simp [ih, add_assoc]

/-- The aggregation of `getPOKTNetworkData` is the sum of the amounts of
the result-code-0 transactions. -/
theorem totalBurnedOf_eq_sum (items : List PoktScanTransaction) :
    totalBurnedOf items =
      ((items.filter (fun burnTx => burnTx.result_code == 0)).map
        (fun burnTx => burnTx.amount)).sum := by
  unfold totalBurnedOf
  rw [foldl_add_amount]
  simp

/-- C5: the burn fetch never returns a daily total at all: the source does
not await its `axios.post`, so `response` is a pending Promise whose
`.data` is undefined and every call — the claim's example feed included —
throws the DataUnavailable error instead of yielding `10`. The (dead)
aggregation expression below the check would compute the filtered sum: on
`[{amt: 10, code: 0}, {amt: 5, code: 1}]` it gives 10, not 15, so the
claim describes the evident intent and the missing `await` is the slip. -/
theorem c5_burn_fetch_never_returns_total :
    (∀ date : Int,
      getPOKTNetworkData (some pendingPoktScanResponse) date =
        .error .poktscanNoData) ∧
    totalBurnedOf [⟨10, "t1", 0⟩, ⟨5, "t2", 1⟩] = 10 ∧
    (10 : ℚ) ≠ 15 := by
  refine ⟨fun date => rfl, ?_, by norm_num⟩
  rw [totalBurnedOf_eq_sum]
  norm_num

/-- C9: the burn query does hard-code pagination limit 10, and the feed
(modelled from the spec) accordingly answers with at most the first 10
matching transactions — an eleven-transaction log and its ten-transaction
prefix produce identical responses. But no burn total summing them is ever
returned: the un-awaited `axios.post` makes every fetch throw before the
sum is computed. -/
theorem c9_limit_10_but_no_total_returned :
    (∀ ISODate : String, (mkVariables ISODate).pagination.limit = 10) ∧
    (∀ (log : List FeedTransaction) (ISODate : String),
      (listPoktTransactionServer log (mkVariables ISODate)).length ≤ 10) ∧
    listPoktTransactionServer c9Log (mkVariables (formatDate 0)) =
      listPoktTransactionServer c9ShortLog (mkVariables (formatDate 0)) ∧
    (∀ date : Int,
      getPOKTNetworkData (some pendingPoktScanResponse) date =
        .error .poktscanNoData) := by
  refine ⟨fun _ => rfl, ?_, by decide, fun date => rfl⟩
  intro log ISODate
  unfold listPoktTransactionServer
  rw [List.length_map]
  exact List.length_take_le _ _

/-! ### The day range (`dateRangeToList`) -/

/-- One step of the closed form: for `fromDate ≤ toDate` the stepped range
is `fromDate` consed onto the range starting one day later. -/
theorem rangeSpec_cons {f t : Int} (h : f ≤ t) :
    rangeSpec f t = f :: rangeSpec (f + msPerDay) t := by
  have hd : msPerDay = (86400000 : Int) := rfl
  by_cases h2 : f + msPerDay ≤ t
  · have ht : (t - f).toNat / 86400000 = (t - (f + msPerDay)).toNat / 86400000 + 1 := by
      rw [hd] at h2 ⊢
      omega
    simp only [rangeSpec, if_pos h, if_pos h2]
    rw [ht, List.range_succ_eq_map, List.map_cons, List.map_map]
    refine congrArg₂ List.cons (by simp) ?_
    refine List.map_congr_left ?_
    intro i _
    simp only [Function.comp_apply]
    push_cast
    ring
  · have hh : (t - f).toNat / 86400000 = 0 := by
      rw [hd] at h2
      omega
    simp [rangeSpec, if_pos h, if_neg h2, hh, List.range_succ]

/-- With enough fuel, the loop of `dateRangeToList` computes the closed
form. -/
theorem dateRangeAux_eq_spec :
    ∀ (fuel : Nat) (f t : Int), (t + 1 - f).toNat ≤ fuel →
      dateRangeAux fuel f t = rangeSpec f t := by
  intro fuel
  induction fuel with
  | zero =>
    intro f t h
    have hft : ¬ f ≤ t := by omega
    simp [dateRangeAux, rangeSpec, hft]
  | succ n ih =>
    intro f t h
    by_cases hft : f ≤ t
    · have hd : msPerDay = (86400000 : Int) := rfl
      rw [dateRangeAux, if_pos hft, ih (f + msPerDay) t (by rw [hd]; omega),
        rangeSpec_cons hft]
    · simp [dateRangeAux, rangeSpec, hft]

/-- `dateRangeToList` equals its closed form. -/
theorem dateRangeToList_eq_spec (f t : Int) :
    dateRangeToList f t = rangeSpec f t :=
  dateRangeAux_eq_spec _ f t le_rfl

/-- C4: for `fromDate ≤ toDate` the generated day list has length
`⌊(toDate − fromDate)/day⌋ + 1`, starts at `fromDate`, ends at the largest
stepped day not exceeding `toDate` (the next step would exceed it), and is
strictly ascending. -/
theorem c4_dateRangeToList_properties (fromDate toDate : Int)
    (h : fromDate ≤ toDate) :
    (dateRangeToList fromDate toDate).length =
      (toDate - fromDate).toNat / 86400000 + 1 ∧
    (dateRangeToList fromDate toDate).head? = some fromDate ∧
    (dateRangeToList fromDate toDate).getLast? =
      some (fromDate + ((toDate - fromDate).toNat / 86400000 : Nat) * msPerDay) ∧
    fromDate + ((toDate - fromDate).toNat / 86400000 : Nat) * msPerDay ≤ toDate ∧
    toDate < fromDate + ((toDate - fromDate).toNat / 86400000 : Nat) * msPerDay + msPerDay ∧
    (dateRangeToList fromDate toDate).Chain' (· < ·) := by
  have hd : msPerDay = (86400000 : Int) := rfl
  rw [dateRangeToList_eq_spec, rangeSpec, if_pos h]
  refine ⟨by simp, ?_, ?_, ?_, ?_, ?_⟩
  · rw [List.range_succ_eq_map]
    simp
  · rw [List.range_succ, List.map_append]
    simp
  · rw [hd]
    omega
  · rw [hd]
    omega
  · refine List.Pairwise.chain' ?_
    refine (List.pairwise_map).mpr ?_
    refine (List.pairwise_lt_range _).imp ?_
    intro i j hij
    rw [hd]
    omega

/-- C4 witness: the range properties at `(0, 200000000)` (three days). -/
theorem c4_dateRangeToList_properties_witness :
    (dateRangeToList 0 200000000).length =
      ((200000000 : Int) - 0).toNat / 86400000 + 1 ∧
    (dateRangeToList 0 200000000).head? = some 0 ∧
    (dateRangeToList 0 200000000).getLast? =
      some (0 + (((200000000 : Int) - 0).toNat / 86400000 : Nat) * msPerDay) ∧
    0 + (((200000000 : Int) - 0).toNat / 86400000 : Nat) * msPerDay ≤ 200000000 ∧
    (200000000 : Int) < 0 + (((200000000 : Int) - 0).toNat / 86400000 : Nat) * msPerDay + msPerDay ∧
    (dateRangeToList 0 200000000).Chain' (· < ·) :=
  c4_dateRangeToList_properties 0 200000000 (by norm_num)

/-! ### Price averaging (`getPOKTDayPrices`) -/

/-- `find?` with an equality predicate returns the sought element itself. -/
theorem dayPrices_find_aux (g : String → ℚ) (l : List String) (d : String) :
    (l.map (fun date => (⟨date, g date⟩ : DayPrice))).find? (fun x => x.date == d) =
      if d ∈ l then some ⟨d, g d⟩ else none := by
  induction l with
  | nil => simp
  | cons x xs ih =>
    by_cases hx : x = d
    · subst hx
      simp
    · rw [List.map_cons, List.find?_cons_of_neg _ (by simp [hx]), ih]
      have hdx : ¬ d = x := fun hc => hx hc.symm
      simp [List.mem_cons, hdx]

/-- Membership in a JS-`Set.add` step. -/
theorem mem_insertUnique (l : List String) (s x : String) :
    x ∈ insertUnique l s ↔ x ∈ l ∨ x = s := by
  unfold insertUnique
  by_cases h : s ∈ l
  · rw [if_pos h]
    constructor
    · exact Or.inl
    · rintro (h1 | rfl)
      · exact h1
      · exact h
  · rw [if_neg h]
    simp

/-- Membership in the `uniqueDates` fold, generalized over the
accumulator. -/
theorem mem_foldl_insertUnique (quotes : List Quote) :
    ∀ (acc : List String) (x : String),
      x ∈ quotes.foldl (fun acc q => insertUnique acc (dayKey q.timestamp)) acc ↔
        x ∈ acc ∨ ∃ q ∈ quotes, dayKey q.timestamp = x := by
  induction quotes with
  | nil => simp
  | cons q qs ih =>
    intro acc x
    rw [List.foldl_cons, ih, mem_insertUnique]
    constructor
    · rintro ((h1 | h2) | h3)
      · exact Or.inl h1
      · exact Or.inr ⟨q, List.mem_cons_self q qs, h2.symm⟩
      · obtain ⟨p, hp, hk⟩ := h3
        exact Or.inr ⟨p, List.mem_cons_of_mem q hp, hk⟩
    · rintro (h1 | ⟨p, hp, hk⟩)
      · exact Or.inl (Or.inl h1)
      · rcases List.mem_cons.mp hp with rfl | hp2
        · exact Or.inl (Or.inr hk.symm)
        · exact Or.inr ⟨p, hp2, hk⟩

/-- A date is a unique date of the quote list iff some quote has it as its
day key. -/
theorem mem_uniqueDates (quotes : List Quote) (x : String) :
    x ∈ uniqueDates quotes ↔ ∃ q ∈ quotes, dayKey q.timestamp = x := by
  rw [uniqueDates, mem_foldl_insertUnique]
  simp

/-- The per-date price lists of permuted quote lists are permutations. -/
theorem dateQuotes_perm {q1 q2 : List Quote} (h : q1.Perm q2) (d : String) :
    (dateQuotes q1 d).Perm (dateQuotes q2 d) :=
  (h.filter _).map _

/-- The computed average is the arithmetic mean `sum / length`. -/
theorem averagePrice_eq_mean (l : List ℚ) :
    averagePrice l = l.sum / (l.length : ℚ) := by
  unfold averagePrice
  rw [foldl_add_eq_sum]
  simp

/-- C6: the price provider groups quotes by their day-truncated timestamp
key; the entry returned for a date is the arithmetic mean of the USD prices
of the quotes sharing that key, and the entry looked up for any date is
unchanged under any permutation of the input quote list. -/
theorem c6_price_averaging (quotes quotes2 : List Quote)
    (hperm : quotes.Perm quotes2) (d : String) :
    ((dayPricesOf quotes).find? (fun x => x.date == d) =
      if d ∈ uniqueDates quotes then
        some ⟨d, (dateQuotes quotes d).sum / ((dateQuotes quotes d).length : ℚ)⟩
      else none) ∧
    (dayPricesOf quotes).find? (fun x => x.date == d) =
      (dayPricesOf quotes2).find? (fun x => x.date == d) := by
  have hmain : ∀ qs : List Quote,
      (dayPricesOf qs).find? (fun x => x.date == d) =
        if d ∈ uniqueDates qs then
          some ⟨d, (dateQuotes qs d).sum / ((dateQuotes qs d).length : ℚ)⟩
        else none := by
    intro qs
    rw [dayPricesOf, dayPrices_find_aux, averagePrice_eq_mean]
  have hmem : d ∈ uniqueDates quotes ↔ d ∈ uniqueDates quotes2 := by
    rw [mem_uniqueDates, mem_uniqueDates]
    constructor
    · rintro ⟨q, hq, hk⟩
      exact ⟨q, hperm.mem_iff.mp hq, hk⟩
    · rintro ⟨q, hq, hk⟩
      exact ⟨q, hperm.mem_iff.mpr hq, hk⟩
  have hq : (dateQuotes quotes d).Perm (dateQuotes quotes2 d) :=
    dateQuotes_perm hperm d
  refine ⟨hmain quotes, ?_⟩
  rw [hmain quotes, hmain quotes2]
  by_cases hd : d ∈ uniqueDates quotes
  · rw [if_pos hd, if_pos (hmem.mp hd), hq.sum_eq, hq.length_eq]
  · rw [if_neg hd, if_neg (fun hc => hd (hmem.mpr hc))]

/-- C6 witness: the grouped mean and its permutation invariance on a
concrete three-quote list with two quotes sharing 2021-07-01. -/
theorem c6_price_averaging_witness :
    ((dayPricesOf c6Quotes).find? (fun x => x.date == "2021-07-01") =
      if "2021-07-01" ∈ uniqueDates c6Quotes then
        some ⟨"2021-07-01", (dateQuotes c6Quotes "2021-07-01").sum /
          ((dateQuotes c6Quotes "2021-07-01").length : ℚ)⟩
      else none) ∧
    (dayPricesOf c6Quotes).find? (fun x => x.date == "2021-07-01") =
      (dayPricesOf c6QuotesPerm).find? (fun x => x.date == "2021-07-01") :=
  c6_price_averaging c6Quotes c6QuotesPerm (by decide) "2021-07-01"

/-! ### The ledger writer (`storeDBData`) -/

/-- The day table after `storeDBData`: update in place when the
`(date, projectId)` key is found, append a fresh row otherwise. -/
theorem storeDBData_days (dayData : DayData) (pid : Nat) (db : DB) :
    (storeDBData dayData pid db).days =
      match db.days.find? (fun d => d.date == dayData.date && d.projectId == pid) with
      | some day =>
        db.days.map (fun d =>
          if d.id == day.id then { d with revenue := dayData.fees } else d)
      | none => db.days ++ [⟨db.nextDayId, dayData.date, dayData.fees, pid⟩] := by
  unfold storeDBData
  cases h : db.days.find? (fun d => d.date == dayData.date && d.projectId == pid) <;>
    simp [h]

/-- The project table after `storeDBData`: every `"pocket"`-named row gets
the new checkpoint; the `projectId` argument plays no role. -/
theorem storeDBData_projects (dayData : DayData) (pid : Nat) (db : DB) :
    (storeDBData dayData pid db).projects =
      db.projects.map (fun p =>
        if p.name == "pocket" then { p with lastImportedId := toString dayData.date }
        else p) := by
  unfold storeDBData
  cases h : db.days.find? (fun d => d.date == dayData.date && d.projectId == pid) <;>
    simp [h]

/-- Updating revenues in place commutes with filtering by the
`(date, projectId)` key. -/
theorem filter_update_key (days : List Day) (targetId : Nat) (fees : ℚ)
    (date : Int) (pid : Nat) :
    (days.map (fun d => if d.id == targetId then { d with revenue := fees } else d)).filter
        (fun d => d.date == date && d.projectId == pid) =
      (days.filter (fun d => d.date == date && d.projectId == pid)).map
        (fun d => if d.id == targetId then { d with revenue := fees } else d) := by
  rw [List.filter_map]
  congr 1
  apply List.filter_congr
  intro d _
  by_cases hid : d.id = targetId <;> simp [hid]

/-- `storeDBData` leaves the row count of its own key at one, and leaves
other counts of that key unchanged. -/
theorem countDays_storeDBData (dayData : DayData) (pid : Nat) (db : DB) :
    countDays (storeDBData dayData pid db) pid dayData.date =
      if countDays db pid dayData.date = 0 then 1
      else countDays db pid dayData.date := by
  unfold countDays
  rw [storeDBData_days]
  cases h : db.days.find? (fun d => d.date == dayData.date && d.projectId == pid) with
  | none =>
    have hnil : db.days.filter (fun d => d.date == dayData.date && d.projectId == pid) = [] := by
      rw [List.filter_eq_nil_iff]
      intro a ha
      simpa using List.find?_eq_none.mp h a ha
    rw [List.filter_append, hnil]
    simp
  | some m =>
    rw [filter_update_key, List.length_map]
    have hm : m ∈ db.days.filter (fun d => d.date == dayData.date && d.projectId == pid) :=
      List.mem_filter.mpr ⟨List.mem_of_find?_eq_some h, by simpa using List.find?_some h⟩
    have hne : (db.days.filter (fun d => d.date == dayData.date && d.projectId == pid)).length ≠ 0 := by
      intro hlen
      rw [List.length_eq_zero] at hlen
      rw [hlen] at hm
      exact (List.not_mem_nil m) hm
    rw [if_neg hne]

/-- A positive key count yields a `find?` hit. -/
theorem find_of_countDays_pos (db : DB) (pid : Nat) (date : Int)
    (h : countDays db pid date ≠ 0) :
    ∃ m, db.days.find? (fun d => d.date == date && d.projectId == pid) = some m := by
  cases hf : db.days.find? (fun d => d.date == date && d.projectId == pid) with
  | some m => exact ⟨m, rfl⟩
  | none =>
    exfalso
    apply h
    unfold countDays
    rw [List.length_eq_zero, List.filter_eq_nil_iff]
    intro a ha
    simpa using List.find?_eq_none.mp hf a ha

/-- C7: calling the day upsert twice with the same `(project, date,
revenue)` leaves exactly one Day row for the `(projectId, date)` pair, that
row holds the given revenue, and the second call creates nothing (the day
table length is unchanged). Assumes the store honours the at-most-one-row
invariant beforehand. -/
theorem c7_upsert_idempotent (dayData : DayData) (pid : Nat) (db : DB)
    (h : countDays db pid dayData.date ≤ 1) :
    countDays (storeDBData dayData pid (storeDBData dayData pid db)) pid dayData.date = 1 ∧
    (∀ d ∈ (storeDBData dayData pid (storeDBData dayData pid db)).days,
      d.date = dayData.date → d.projectId = pid → d.revenue = dayData.fees) ∧
    (storeDBData dayData pid (storeDBData dayData pid db)).days.length =
      (storeDBData dayData pid db).days.length := by
  have hc1 : countDays (storeDBData dayData pid db) pid dayData.date = 1 := by
    rw [countDays_storeDBData]
    by_cases h0 : countDays db pid dayData.date = 0
    · rw [if_pos h0]
    · rw [if_neg h0]
      omega
  obtain ⟨m, hm⟩ :=
    find_of_countDays_pos (storeDBData dayData pid db) pid dayData.date (by omega)
  have hdays2 : (storeDBData dayData pid (storeDBData dayData pid db)).days =
      (storeDBData dayData pid db).days.map
        (fun d => if d.id == m.id then { d with revenue := dayData.fees } else d) := by
    rw [storeDBData_days, hm]
  have hfilter1 : (storeDBData dayData pid db).days.filter
      (fun d => d.date == dayData.date && d.projectId == pid) = [m] := by
    have hm1 : m ∈ (storeDBData dayData pid db).days.filter
        (fun d => d.date == dayData.date && d.projectId == pid) :=
      List.mem_filter.mpr ⟨List.mem_of_find?_eq_some hm, by simpa using List.find?_some hm⟩
    unfold countDays at hc1
    obtain ⟨a, ha⟩ := List.length_eq_one.mp hc1
    rw [ha] at hm1 ⊢
    have : m = a := by simpa using hm1
    rw [this]
  refine ⟨?_, ?_, ?_⟩
  · rw [countDays_storeDBData, hc1]
    norm_num
  · intro d hd hdate hpid
    rw [hdays2] at hd
    obtain ⟨d0, hd0, rfl⟩ := List.mem_map.mp hd
    by_cases hid : d0.id = m.id
    · simp [hid]
    · rw [if_neg (by simpa using hid)] at hdate hpid ⊢
      have hp0 : d0 ∈ (storeDBData dayData pid db).days.filter
          (fun d => d.date == dayData.date && d.projectId == pid) :=
        List.mem_filter.mpr ⟨hd0, by simp [hdate, hpid]⟩
      rw [hfilter1] at hp0
      have hdm : d0 = m := by simpa using hp0
      exact absurd (by rw [hdm]) hid
  · rw [hdays2, List.length_map]

/-- C7 witness: the idempotent upsert on a concrete store with no prior
row for the key. -/
theorem c7_upsert_idempotent_witness :
    countDays (storeDBData ⟨100, 7⟩ 1 (storeDBData ⟨100, 7⟩ 1 c7DB)) 1 100 = 1 ∧
    (∀ d ∈ (storeDBData ⟨100, 7⟩ 1 (storeDBData ⟨100, 7⟩ 1 c7DB)).days,
      d.date = 100 → d.projectId = 1 → d.revenue = 7) ∧
    (storeDBData ⟨100, 7⟩ 1 (storeDBData ⟨100, 7⟩ 1 c7DB)).days.length =
      (storeDBData ⟨100, 7⟩ 1 c7DB).days.length :=
  c7_upsert_idempotent ⟨100, 7⟩ 1 c7DB (by decide)

/-- C10: the checkpoint-advance write inside the ledger writer filters on
the hard-coded name `"pocket"`: every project named `"pocket"` gets the new
checkpoint, projects with other names are untouched, the project-table
outcome is independent of the `projectId` argument, while any day row the
write adds or changes is keyed by the `projectId` argument (and the written
date). -/
theorem c10_checkpoint_write_by_name (dayData : DayData) (pid otherPid : Nat) (db : DB)
    (hids : (db.days.map (fun d => d.id)).Nodup) :
    (∀ p ∈ (storeDBData dayData pid db).projects, p.name = "pocket" →
      p.lastImportedId = toString dayData.date) ∧
    (∀ p ∈ (storeDBData dayData pid db).projects, p.name ≠ "pocket" →
      p ∈ db.projects) ∧
    (storeDBData dayData pid db).projects = (storeDBData dayData otherPid db).projects ∧
    (∀ d ∈ (storeDBData dayData pid db).days, d ∉ db.days →
      d.projectId = pid ∧ d.date = dayData.date) := by
  refine ⟨?_, ?_, ?_, ?_⟩
  · rw [storeDBData_projects]
    intro p hp hname
    obtain ⟨q, hq, rfl⟩ := List.mem_map.mp hp
    by_cases hqn : q.name == "pocket"
    · simp [hqn]
    · rw [if_neg (by simpa using hqn)] at hname ⊢
      exact absurd hname (by simpa using hqn)
  · rw [storeDBData_projects]
    intro p hp hname
    obtain ⟨q, hq, rfl⟩ := List.mem_map.mp hp
    by_cases hqn : q.name == "pocket"
    · rw [if_pos (by simpa using hqn)] at hname
      exact absurd (by simpa using hqn) hname
    · rw [if_neg (by simpa using hqn)]
      exact hq
  · rw [storeDBData_projects, storeDBData_projects]
  · rw [storeDBData_days]
    cases hf : db.days.find? (fun d => d.date == dayData.date && d.projectId == pid) with
    | none =>
      intro d hd hnot
      rcases List.mem_append.mp hd with h1 | h2
      · exact absurd h1 hnot
      · have : d = ⟨db.nextDayId, dayData.date, dayData.fees, pid⟩ := by simpa using h2
        rw [this]
        exact ⟨rfl, rfl⟩
    | some m =>
      intro d hd hnot
      obtain ⟨d0, hd0, rfl⟩ := List.mem_map.mp hd
      by_cases hid : d0.id == m.id
      · have hmm : m ∈ db.days := List.mem_of_find?_eq_some hf
        have hdm : d0 = m :=
          List.inj_on_of_nodup_map hids hd0 hmm (by simpa using hid)
        subst hdm
        have hp := List.find?_some hf
        simp only [Bool.and_eq_true, beq_iff_eq] at hp
        rw [if_pos hid]
        exact ⟨hp.2, hp.1⟩
      · rw [if_neg (by simpa using hid)] at hnot ⊢
        exact absurd hd0 hnot

/-- C10 witness: the name-filtered checkpoint write on a concrete store
holding a pocket project and an unrelated project. -/
theorem c10_checkpoint_write_by_name_witness :
    (∀ p ∈ (storeDBData ⟨100, 7⟩ 1 c7DB).projects, p.name = "pocket" →
      p.lastImportedId = toString (100 : Int)) ∧
    (∀ p ∈ (storeDBData ⟨100, 7⟩ 1 c7DB).projects, p.name ≠ "pocket" →
      p ∈ c7DB.projects) ∧
    (storeDBData ⟨100, 7⟩ 1 c7DB).projects = (storeDBData ⟨100, 7⟩ 2 c7DB).projects ∧
    (∀ d ∈ (storeDBData ⟨100, 7⟩ 1 c7DB).days, d ∉ c7DB.days →
      d.projectId = 1 ∧ d.date = 100) :=
  c10_checkpoint_write_by_name ⟨100, 7⟩ 1 2 c7DB (by decide)

/-! ### The orchestrator (`pocketImport`) -/

/-- `getProject` never touches the day table. -/
theorem getProject_days (db : DB) (name : String) :
    (getProject db name).1.days = db.days := by
  unfold getProject
  cases h : db.projects.find? (fun p => p.name == name) <;> simp [h]

/-- The reset block never touches the day table. -/
theorem resetStep_days (db : DB) (project : Project) :
    (resetStep db project).days = db.days := by
  unfold resetStep
  by_cases h : project.del <;> simp [h]

/-- The per-day body can only throw the burn-fetch or price-lookup errors,
never the checkpoint-parse error. -/
theorem processDay_no_parse_error (poktscan : Int → Option PoktScanResponse)
    (prices : List DayPrice) (pid : Nat) (db : DB) (day : Int) :
    (processDay poktscan prices pid db day).2 ≠ some .parseIntError := by
  unfold processDay getPOKTNetworkData
  cases hr : poktscan day with
  | none => simp
  | some r =>
    cases hd : r.data with
    | none => simp [hd]
    | some d =>
      cases hf : prices.find? (fun x => x.date == formatDate day) <;> simp [hd, hf]

/-- The day loop can only surface per-day errors, never the
checkpoint-parse error. -/
theorem runDays_no_parse_error (poktscan : Int → Option PoktScanResponse)
    (prices : List DayPrice) (pid : Nat) :
    ∀ (days : List Int) (db : DB),
      (runDays poktscan prices pid db days).2 ≠ some .parseIntError := by
  intro days
  induction days with
  | nil => intro db; simp [runDays]
  | cons day rest ih =>
    intro db
    rw [runDays]
    cases hp : processDay poktscan prices pid db day with
    | mk db1 e =>
      cases e with
      | none => exact ih db1
      | some err =>
        have := processDay_no_parse_error poktscan prices pid db day
        rw [hp] at this
        simpa using this

/-- C1: the end-to-end scenario (fresh `"pocket"` project at the epoch
start, three days with burns 100/0/50 at a flat $1.00) does not produce the
three Day records: the run aborts on the first day, because the price
lookup key is the day's 24-character ISO timestamp while every price entry
is keyed by a 10-character date; no Day row is written and the checkpoint
stays at the epoch start. -/
theorem c1_end_to_end_aborts :
    pocketImport c1World emptyDB =
      (⟨[⟨1, "pocket", "1625112000", false⟩], [], 2, 1⟩,
        some (.priceMissing "2021-07-01T04:00:00.000Z")) ∧
    (dayPricesOf c1Quotes).map (fun x => x.date) =
      ["2021-07-01", "2021-07-02", "2021-07-03"] :=
  ⟨by decide, by decide⟩

/-- C2 counterexample: on a store whose flagged pocket project has
checkpoint July 2nd 2021, the run leaves the stored checkpoint at `"0"` —
not the epoch-start constant `"1625112000"` used at creation — and the
first day the loop actually processes (carried in the abort error) is the
stale July 2nd day, not an epoch-start day under either reading. -/
theorem c2_reset_counterexample :
    pocketImport c2World c2DB =
      (⟨[⟨1, "pocket", "0", false⟩], [], 2, 1⟩,
        some (.priceMissing "2021-07-02T04:00:00.000Z")) ∧
    ("0" : String) ≠ "1625112000" ∧
    ("2021-07-02T04:00:00.000Z" : String) ≠ "2021-07-01T04:00:00.000Z" ∧
    ("2021-07-02T04:00:00.000Z" : String) ≠ "1970-01-01T00:00:00.000Z" :=
  ⟨by decide, by decide, by decide, by decide⟩

/-- C2 (amended): for a flagged project the run clears the flag and sets
the stored checkpoint to `"0"` (projects with other names untouched), but
the in-memory project is not re-read: the run continues on the reset store
with the day range computed from the pre-reset checkpoint value; only a
later run starts from `"0"`. -/
theorem c2_reset_amended (w : World) (db : DB)
    (hdel : (getProject db "pocket").2.del = true)
    (n : Int) (hparse : jsParseInt (getProject db "pocket").2.lastImportedId = some n)
    (prices : List DayPrice) (hprices : getPOKTDayPrices w.cmc = .ok prices) :
    (∀ p ∈ (resetStep (getProject db "pocket").1 (getProject db "pocket").2).projects,
      p.name = "pocket" → p.lastImportedId = "0" ∧ p.del = false) ∧
    (∀ p ∈ (resetStep (getProject db "pocket").1 (getProject db "pocket").2).projects,
      p.name ≠ "pocket" → p ∈ (getProject db "pocket").1.projects) ∧
    pocketImport w db =
      runDays w.poktscan prices (getProject db "pocket").2.id
        (resetStep (getProject db "pocket").1 (getProject db "pocket").2)
        (dateRangeToList (n * 1000) w.now) := by
  refine ⟨?_, ?_, ?_⟩
  · intro p hp hname
    unfold resetStep at hp
    rw [if_pos hdel] at hp
    obtain ⟨q, hq, rfl⟩ := List.mem_map.mp hp
    by_cases hqn : q.name == "pocket"
    · rw [if_pos hqn]
      exact ⟨rfl, rfl⟩
    · rw [if_neg hqn] at hname ⊢
      exact absurd hname (by simpa using hqn)
  · intro p hp hname
    unfold resetStep at hp
    rw [if_pos hdel] at hp
    obtain ⟨q, hq, rfl⟩ := List.mem_map.mp hp
    by_cases hqn : q.name == "pocket"
    · rw [if_pos hqn] at hname
      exact absurd (by simpa using hqn) hname
    · rw [if_neg hqn]
      exact hq
  · simp only [pocketImport, importFromCheckpoint]
    rw [hparse, hprices]

/-- C2 witness: the amended behaviour at the concrete reset scenario. -/
theorem c2_reset_amended_witness :
    pocketImport c2World c2DB =
      runDays c2World.poktscan (dayPricesOf c1Quotes) (getProject c2DB "pocket").2.id
        (resetStep (getProject c2DB "pocket").1 (getProject c2DB "pocket").2)
        (dateRangeToList ((1625198400 : Int) * 1000) c2World.now) :=
  (c2_reset_amended c2World c2DB (by decide) 1625198400 (by decide)
    (dayPricesOf c1Quotes) rfl).2.2

/-- C8 counterexample: `"123abc"` is not a valid integer string, yet the
run does not abort with the checkpoint-parse error — `parseInt` accepts the
numeric prefix `123` and the run completes (here with an empty day range),
leaving the store untouched. -/
theorem c8_parse_counterexample :
    specValidIntegerString "123abc" = false ∧
    (pocketImport c8World c8DB).2 = none ∧
    (pocketImport c8World c8DB).1 =
      ⟨[⟨1, "pocket", "123abc", false⟩], [], 2, 1⟩ :=
  ⟨by decide, by decide, by decide⟩

/-- C8 (amended): the run aborts with the checkpoint-parse error exactly
when JS `parseInt` of the resolved project's stored checkpoint yields `NaN`
(no parseable leading digits); strings with a numeric prefix such as
`"123abc"` do not abort. When it does abort, the abort happens before the
day loop: the day table is left exactly as it was. -/
theorem c8_parse_amended (w : World) (db : DB) :
    ((pocketImport w db).2 = some .parseIntError ↔
      jsParseInt (getProject db "pocket").2.lastImportedId = none) ∧
    (jsParseInt (getProject db "pocket").2.lastImportedId = none →
      (pocketImport w db).1.days = db.days) := by
  simp only [pocketImport, importFromCheckpoint]
  cases hp : jsParseInt (getProject db "pocket").2.lastImportedId with
  | none =>
    refine ⟨by simp, ?_⟩
    intro _
    rw [resetStep_days, getProject_days]
  | some n =>
    refine ⟨?_, by simp⟩
    cases hq : getPOKTDayPrices w.cmc with
    | error e =>
      have he : e = .priceApiNoData := by
        unfold getPOKTDayPrices at hq
        cases hc : w.cmc <;> rw [hc] at hq <;> simp at hq
        exact hq.symm
      simp [he]
    | ok prices =>
      simp only []
      constructor
      · intro hcontra
        exact absurd hcontra (runDays_no_parse_error w.poktscan prices
          (getProject db "pocket").2.id _ _)
      · intro hcontra
        exact absurd hcontra (by simp)

/-- C8 witness: a checkpoint with no digits at all does abort with the
parse error. -/
theorem c8_parse_amended_witness :
    (pocketImport c8World c8BadDB).2 = some .parseIntError :=
  (c8_parse_amended c8World c8BadDB).1.mpr (by decide)

/-! ### Per-day checkpoint advancement (the day loop) -/

/-- The in-place revenue update never changes a row's key fields. -/
theorem update_preserves_key (targetId : Nat) (fees : ℚ) (x : Day) :
    (if x.id == targetId then { x with revenue := fees } else x).date = x.date ∧
    (if x.id == targetId then { x with revenue := fees } else x).projectId = x.projectId := by
  by_cases hid : (x.id == targetId) = true <;> simp [hid]

/-- After a first pocket row exists, `storeDBData` sets the checkpoint read
back by `checkpointOf` to the written day's timestamp string. -/
theorem find_pocket_after_update (ps : List Project) (s : String)
    (h : (ps.find? (fun p => p.name == "pocket")).isSome) :
    ((ps.map (fun p => if p.name == "pocket" then { p with lastImportedId := s } else p)).find?
      (fun p => p.name == "pocket")).map (fun p => p.lastImportedId) = some s := by
  induction ps with
  | nil => simp at h
  | cons q qs ih =>
    by_cases hq : (q.name == "pocket") = true
    · rw [List.map_cons, if_pos hq, List.find?_cons_of_pos _ (by simpa using hq)]
      simp
    · rw [List.map_cons, if_neg hq, List.find?_cons_of_neg _ (by simpa using hq)]
      rw [List.find?_cons_of_neg _ (by simpa using hq)] at h
      exact ih h

/-- `storeDBData` advances the stored pocket checkpoint to the written
day's timestamp. -/
theorem checkpointOf_storeDBData (dayData : DayData) (pid : Nat) (db : DB)
    (h : (checkpointOf db).isSome) :
    checkpointOf (storeDBData dayData pid db) = some (toString dayData.date) := by
  unfold checkpointOf at h ⊢
  rw [storeDBData_projects]
  exact find_pocket_after_update db.projects _ (by simpa using h)

/-- C3: the ledger writer does advance the stored checkpoint to exactly
the written day's timestamp (the claimed per-write mechanism is present in
`storeDBData`), but the running program never performs a successful day
write: with the pending-promise response the un-awaited burn fetch actually
binds, the loop aborts at its first day whatever the store, the prices and
the range, committing nothing and leaving the checkpoint untouched — in
particular on a concrete three-day range, and in a full pipeline run from a
fresh store. -/
theorem c3_checkpoint_never_advances :
    checkpointOf (storeDBData ⟨86400, 10⟩ 1 c3DB) = some (toString (86400 : Int)) ∧
    (∀ (prices : List DayPrice) (pid : Nat) (db : DB) (day : Int) (rest : List Int),
      runDays (fun _ => some pendingPoktScanResponse) prices pid db (day :: rest) =
        (db, some .poktscanNoData)) ∧
    runDays (fun _ => some pendingPoktScanResponse) c3Prices 1 c3DB c3Days =
      (c3DB, some .poktscanNoData) ∧
    pocketImport ⟨some ⟨⟨c1Quotes⟩⟩, fun _ => some pendingPoktScanResponse, 1625284800000⟩
        emptyDB =
      (⟨[⟨1, "pocket", "1625112000", false⟩], [], 2, 1⟩, some .poktscanNoData) := by
  refine ⟨checkpointOf_storeDBData ⟨86400, 10⟩ 1 c3DB (by decide), ?_, by decide, by decide⟩
  intro prices pid db day rest
  rfl

end Pocket
